import Mathlib

/-!
# Verification of the smart-tv-remote connection and dispatch layer

A shallow embedding of the device connection and command dispatch core of
the smart-tv-remote application, together with theorems about its
behaviour.  The embedding covers:

* the persisted device registry (`saveDevice`, `getSavedDevices`,
  `addDevice` from `adb-direct` / `useDirectAdb`);
* the ADB binary wire codec (`createMessage` from `native-adb`,
  modelled byte-by-byte after the `DataView` writes of the source);
* the wire transport's shell-command builders (`sendText`, `sendKey`,
  `getKeyCodeNumber`, `KEY_CODE_MAP`);
* the connection manager (`AdbConnectionManager.connect`);
* the bridge transport's command gate (`sendCommand`) and its
  pending-request correlation for screenshot and wake-on-LAN requests
  (`bridgeStep`/`bridgeRun`, modelling `takeScreenshot`, `wakeOnLan`,
  `handleBridgeMessage` and the timeout callbacks of `useAdbConnection`).

State that the source keeps in mutable refs, `localStorage` or a
WebSocket is passed explicitly; the event-driven callbacks of the bridge
hook become a step function over an explicit event trace.
-/

namespace SmartTvRemote

/-- The `Device` record of `types/adb.ts`. -/
structure Device where
  id : String
  name : String
  ip : String
  port : Nat
  model : Option String := none
  manufacturer : Option String := none
  androidVersion : Option String := none
deriving DecidableEq

/-! ## Device registry (`adb-direct.ts`) -/

/-- Function `saveDevice` from `adb-direct.ts`, acting on the persisted list:
`findIndex` for the device id, replace in place when found, else push. -/
def saveDevice (device : Device) (saved : List Device) : List Device :=
  match saved.findIdx? (fun d => d.id == device.id) with
  | some i => saved.set i device
  | none => saved ++ [device]

/-- Recursive reformulation of `saveDevice`, used for inductive proofs. -/
def saveDeviceRec (device : Device) : List Device → List Device
  | [] => [device]
  | d :: rest =>
      if d.id = device.id then device :: rest else d :: saveDeviceRec device rest

lemma saveDevice_eq_rec (device : Device) (saved : List Device) :
    saveDevice device saved = saveDeviceRec device saved := by
  induction saved with
  | nil => rfl
  | cons d rest ih =>
      by_cases h : d.id = device.id
      · simp [saveDevice, saveDeviceRec, List.findIdx?_cons, h]
      · have hb : (d.id == device.id) = false := by
          simp [h]
        rw [saveDevice, List.findIdx?_cons, hb]
        simp only [if_false, Bool.false_eq_true, List.findIdx?_succ]
        rw [saveDevice] at ih
        cases hfi : rest.findIdx? (fun d' => d'.id == device.id) with
        | none =>
            rw [hfi] at ih
            simp [saveDeviceRec, h, Option.map_none, ← ih]
        | some i =>
            rw [hfi] at ih
            simp [saveDeviceRec, h, Option.map_some, List.set_cons_succ, ← ih]

/-- The ids stored by `saveDeviceRec`: unchanged when the id was already
present, appended otherwise. -/
lemma ids_saveDeviceRec (device : Device) (saved : List Device) :
    (saveDeviceRec device saved).map Device.id =
      if device.id ∈ saved.map Device.id then saved.map Device.id
      else saved.map Device.id ++ [device.id] := by
  induction saved with
  | nil => simp [saveDeviceRec]
  | cons d rest ih =>
      by_cases h : d.id = device.id
      · simp [saveDeviceRec, h]
      · have hne : ¬ device.id = d.id := fun hc => h hc.symm
        by_cases hm : device.id ∈ rest.map Device.id
        · simp [saveDeviceRec, h, hm, ih, hne]
        · simp [saveDeviceRec, h, hm, ih, hne]

/-- Saving the same device a second time changes nothing. -/
lemma saveDeviceRec_idem (device : Device) (saved : List Device) :
    saveDeviceRec device (saveDeviceRec device saved) = saveDeviceRec device saved := by
  induction saved with
  | nil => simp [saveDeviceRec]
  | cons d rest ih =>
      by_cases h : d.id = device.id
      · simp [saveDeviceRec, h]
      · simp [saveDeviceRec, h, ih]

/-- Fresh id: `saveDeviceRec` appends. -/
lemma saveDeviceRec_of_not_mem (device : Device) (saved : List Device)
    (h : device.id ∉ saved.map Device.id) :
    saveDeviceRec device saved = saved ++ [device] := by
  induction saved with
  | nil => rfl
  | cons d rest ih =>
      rw [List.map_cons, List.mem_cons] at h
      push_neg at h
      obtain ⟨h1, h2⟩ := h
      have hne : ¬ d.id = device.id := fun hc => h1 hc.symm
      simp [saveDeviceRec, hne, ih h2]

/-- Function `addDevice` of `useDirectAdb.ts`: build the device record with
`id = ip:port` and persist it via `saveDevice`. -/
def mkDevice (ip : String) (name : Option String) (port : Nat) : Device :=
  { id := ip ++ ":" ++ toString port
    ip := ip
    port := port
    name := name.getD ("Android TV (" ++ ip ++ ")") }

def addDevice (ip : String) (name : Option String) (port : Nat)
    (saved : List Device) : List Device :=
  saveDevice (mkDevice ip name port) saved

/-- Function `getSavedDevices` from `adb-direct.ts`.  The backing store as seen
through `localStorage.getItem` plus `JSON.parse`: `none` when the key is
absent, `some none` when the stored string is unparseable (`JSON.parse`
throws and the `catch` arm runs), `some (some l)` when it parses to the
device list `l`. -/
def getSavedDevices (store : Option (Option (List Device))) : List Device :=
  match store with
  | none => []
  | some none => []
  | some (some l) => l

/-- C6: calling the registry's add operation twice with the same
`(ip, port)` pair leaves exactly one entry whose id is `ip:port` in the
saved list; the second call changes nothing, and a fresh device is
appended while an existing id is replaced in place. -/
theorem addDevice_upsert (ip : String) (name : Option String) (port : Nat)
    (saved : List Device) (h : (saved.map Device.id).Nodup) :
    (mkDevice ip name port).id = ip ++ ":" ++ toString port ∧
    ((addDevice ip name port (addDevice ip name port saved)).map Device.id).count
        (ip ++ ":" ++ toString port) = 1 ∧
    addDevice ip name port (addDevice ip name port saved) =
      addDevice ip name port saved ∧
    ((mkDevice ip name port).id ∉ saved.map Device.id →
      addDevice ip name port saved = saved ++ [mkDevice ip name port]) := by
  set dev := mkDevice ip name port with hdev
  have hid : dev.id = ip ++ ":" ++ toString port := rfl
  refine ⟨hid, ?_, ?_, ?_⟩
  · rw [addDevice, addDevice, saveDevice_eq_rec, saveDevice_eq_rec,
      saveDeviceRec_idem, ids_saveDeviceRec]
    by_cases hm : dev.id ∈ saved.map Device.id
    · rw [if_pos hm, ← hid]
      exact List.count_eq_one_of_mem h hm
    · rw [if_neg hm, ← hid, List.count_append]
      have h0 : (saved.map Device.id).count dev.id = 0 :=
        List.count_eq_zero.mpr hm
      simp [h0]
  · rw [addDevice, addDevice, saveDevice_eq_rec, saveDevice_eq_rec,
      saveDeviceRec_idem]
  · intro hm
    rw [addDevice, saveDevice_eq_rec]
    exact saveDeviceRec_of_not_mem dev saved hm

/-- Witness for `addDevice_upsert` at a concrete device and empty store. -/
theorem addDevice_upsert_witness :
    ((([] : List Device).map Device.id).Nodup) ∧
    ((mkDevice ("192.168.1.50") none 5555).id = "192.168.1.50" ++ ":" ++ toString 5555 ∧
    ((addDevice ("192.168.1.50") none 5555
        (addDevice ("192.168.1.50") none 5555 [])).map Device.id).count
        ("192.168.1.50" ++ ":" ++ toString 5555) = 1 ∧
    addDevice ("192.168.1.50") none 5555
        (addDevice ("192.168.1.50") none 5555 []) =
      addDevice ("192.168.1.50") none 5555 [] ∧
    ((mkDevice ("192.168.1.50") none 5555).id ∉ ([] : List Device).map Device.id →
      addDevice ("192.168.1.50") none 5555 [] = [] ++ [mkDevice ("192.168.1.50") none 5555])) :=
  ⟨by decide, addDevice_upsert ("192.168.1.50") none 5555 [] (by decide)⟩

/-- C9: the registry's list operation never raises: an absent or
unparseable store yields the empty list, and a parseable store yields
the saved devices exactly as stored; devices saved with a fresh id are
appended at the end, so the stored order is insertion order. -/
theorem getSavedDevices_never_raises :
    getSavedDevices none = [] ∧
    getSavedDevices (some none) = [] ∧
    (∀ l : List Device, getSavedDevices (some (some l)) = l) ∧
    (∀ (l : List Device) (dev : Device), dev.id ∉ l.map Device.id →
      getSavedDevices (some (some (saveDevice dev l))) = l ++ [dev]) := by
  refine ⟨rfl, rfl, fun l => rfl, fun l dev h => ?_⟩
  rw [getSavedDevices, saveDevice_eq_rec]
  exact saveDeviceRec_of_not_mem dev l h

/-- Witness for `getSavedDevices_never_raises` at a concrete device. -/
theorem getSavedDevices_never_raises_witness :
    ((mkDevice ("10.0.0.2") none 5555).id ∉ ([] : List Device).map Device.id) ∧
    getSavedDevices (some (some (saveDevice (mkDevice ("10.0.0.2") none 5555) []))) =
      [] ++ [mkDevice ("10.0.0.2") none 5555] :=
  ⟨by decide,
    getSavedDevices_never_raises.2.2.2 [] (mkDevice ("10.0.0.2") none 5555) (by decide)⟩

/-! ## ADB wire protocol codec (`native-adb.ts`) -/

/-- ADB protocol constants from `native-adb.ts`. -/
def ADB_HEADER_SIZE : Nat := 24

def ADB_VERSION : Nat := 0x01000000

def ADB_MAX_PAYLOAD : Nat := 4096

def A_CNXN : Nat := 0x4e584e43

def A_OPEN : Nat := 0x4e45504f

def A_OKAY : Nat := 0x59414b4f

def A_CLSE : Nat := 0x45534c43

def A_WRTE : Nat := 0x45545257

def A_AUTH : Nat := 0x48545541

/-- The write `DataView.setUint32(off, v, true)`: write `v` truncated to 32 bits at
byte offset `off`, least significant byte first. -/
def setUint32LE (msg : List Nat) (off : Nat) (v : Nat) : List Nat :=
  (((msg.set off (v % 256)).set (off + 1) (v / 256 % 256)).set
      (off + 2) (v / 65536 % 256)).set (off + 3) (v / 16777216 % 256)

/-- The copy `message.set(data, off)`: copy the payload bytes into the buffer
starting at offset `off`. -/
def setPayload (msg : List Nat) (off : Nat) : List Nat → List Nat
  | [] => msg
  | b :: rest => setPayload (msg.set off b) (off + 1) rest

/-- The checksum loop of `createMessage`: plain sum of the payload bytes. -/
def payloadChecksum (data : List Nat) : Nat := data.sum

/-- Method `AdbConnection.createMessage` from `native-adb.ts`: allocate a zeroed
buffer of `ADB_HEADER_SIZE + data.length` bytes, write the six
little-endian 32-bit header fields with `DataView.setUint32`, and copy
the payload behind the header.  The magic write stores
`command ^ 0xFFFFFFFF`, which `setUint32` truncates to 32 bits. -/
def createMessage (command arg0 arg1 : Nat) (data : List Nat) : List Nat :=
  let msg := List.replicate (ADB_HEADER_SIZE + data.length) 0
  let m1 := setUint32LE msg 0 command
  let m2 := setUint32LE m1 4 arg0
  let m3 := setUint32LE m2 8 arg1
  let m4 := setUint32LE m3 12 data.length
  let m5 := setUint32LE m4 16 (payloadChecksum data)
  let m6 := setUint32LE m5 20 (Nat.xor (command % 4294967296) 4294967295)
  setPayload m6 24 data

/-- The four little-endian bytes of the 32-bit truncation of `v`. -/
def le4 (v : Nat) : List Nat :=
  [v % 256, v / 256 % 256, v / 65536 % 256, v / 16777216 % 256]

/-- The read `DataView.getUint32(off, true)` on the byte list: recombine four
little-endian bytes. -/
def readUint32LE (msg : List Nat) (off : Nat) : Nat :=
  msg.getD off 0 + 256 * msg.getD (off + 1) 0 + 65536 * msg.getD (off + 2) 0 +
    16777216 * msg.getD (off + 3) 0

/-- The six header writes on the zeroed buffer produce exactly the
concatenated little-endian fields, leaving the tail untouched. -/
lemma header_writes (c a0 a1 L S M : Nat) (tail : List Nat) :
    setUint32LE (setUint32LE (setUint32LE (setUint32LE (setUint32LE
      (setUint32LE (List.replicate 24 0 ++ tail) 0 c) 4 a0) 8 a1) 12 L) 16 S) 20 M =
    (le4 c ++ le4 a0 ++ le4 a1 ++ le4 L ++ le4 S ++ le4 M) ++ tail := by
  have s1 : setUint32LE (List.replicate 24 0 ++ tail) 0 c =
      le4 c ++ (List.replicate 20 0 ++ tail) := rfl
  have s2 : setUint32LE (le4 c ++ (List.replicate 20 0 ++ tail)) 4 a0 =
      le4 c ++ (le4 a0 ++ (List.replicate 16 0 ++ tail)) := rfl
  have s3 : setUint32LE (le4 c ++ (le4 a0 ++ (List.replicate 16 0 ++ tail))) 8 a1 =
      le4 c ++ (le4 a0 ++ (le4 a1 ++ (List.replicate 12 0 ++ tail))) := rfl
  have s4 : setUint32LE (le4 c ++ (le4 a0 ++ (le4 a1 ++ (List.replicate 12 0 ++ tail)))) 12 L =
      le4 c ++ (le4 a0 ++ (le4 a1 ++ (le4 L ++ (List.replicate 8 0 ++ tail)))) := rfl
  have s5 : setUint32LE
      (le4 c ++ (le4 a0 ++ (le4 a1 ++ (le4 L ++ (List.replicate 8 0 ++ tail))))) 16 S =
      le4 c ++ (le4 a0 ++ (le4 a1 ++ (le4 L ++ (le4 S ++ (List.replicate 4 0 ++ tail))))) := rfl
  have s6 : setUint32LE
      (le4 c ++ (le4 a0 ++ (le4 a1 ++ (le4 L ++ (le4 S ++ (List.replicate 4 0 ++ tail)))))) 20 M =
      le4 c ++ (le4 a0 ++ (le4 a1 ++ (le4 L ++ (le4 S ++ (le4 M ++ tail))))) := rfl
  rw [s1, s2, s3, s4, s5, s6]
  simp [List.append_assoc]

/-- Writing a byte at the junction of a prepared buffer. -/
lemma set_at_length (l : List Nat) (x : Nat) (t : List Nat) (b : Nat) :
    (l ++ x :: t).set l.length b = l ++ b :: t := by
  induction l with
  | nil => rfl
  | cons a l ih =>
      simp only [List.cons_append, List.length_cons, List.set_cons_succ, ih]

/-- Copying the payload over the zero-filled region behind a prefix of
matching length yields the prefix followed by the payload. -/
lemma setPayload_fill (l : List Nat) (d : List Nat) :
    setPayload (l ++ List.replicate d.length 0) l.length d = l ++ d := by
  induction d generalizing l with
  | nil => simp [setPayload]
  | cons b rest ih =>
      rw [List.length_cons, List.replicate_succ, setPayload, set_at_length]
      have h := ih (l ++ [b])
      rw [List.length_append, List.length_singleton, List.append_assoc] at h
      simpa using h

/-- Frame shape: `createMessage` is the concatenation of the six little-endian header
fields and the payload. -/
lemma createMessage_concat (command arg0 arg1 : Nat) (data : List Nat) :
    createMessage command arg0 arg1 data =
      (le4 command ++ le4 arg0 ++ le4 arg1 ++ le4 data.length ++
        le4 (payloadChecksum data) ++
        le4 (Nat.xor (command % 4294967296) 4294967295)) ++ data := by
  rw [createMessage, ADB_HEADER_SIZE, List.replicate_add, header_writes]
  have hlen : (le4 command ++ le4 arg0 ++ le4 arg1 ++ le4 data.length ++
      le4 (payloadChecksum data) ++
      le4 (Nat.xor (command % 4294967296) 4294967295)).length = 24 := by
    simp [le4]
  calc setPayload ((le4 command ++ le4 arg0 ++ le4 arg1 ++ le4 data.length ++
        le4 (payloadChecksum data) ++
        le4 (Nat.xor (command % 4294967296) 4294967295)) ++
          List.replicate data.length 0) 24 data
      = setPayload ((le4 command ++ le4 arg0 ++ le4 arg1 ++ le4 data.length ++
          le4 (payloadChecksum data) ++
          le4 (Nat.xor (command % 4294967296) 4294967295)) ++
            List.replicate data.length 0)
          (le4 command ++ le4 arg0 ++ le4 arg1 ++ le4 data.length ++
            le4 (payloadChecksum data) ++
            le4 (Nat.xor (command % 4294967296) 4294967295)).length data := by
        rw [hlen]
    _ = _ := setPayload_fill _ data

/-- C3: for every command, arg0, arg1 and payload, `createMessage` emits
the 24-byte little-endian header `command | arg0 | arg1 | length |
checksum | magic` followed by exactly the payload bytes, with
`magic = command XOR 0xFFFFFFFF`. -/
theorem createMessage_layout (command arg0 arg1 : Nat) (data : List Nat)
    (h : command < 4294967296) :
    createMessage command arg0 arg1 data =
      le4 command ++ le4 arg0 ++ le4 arg1 ++ le4 data.length ++
        le4 (payloadChecksum data) ++ le4 (Nat.xor command 4294967295) ++ data ∧
    (createMessage command arg0 arg1 data).length = 24 + data.length := by
  have hm : command % 4294967296 = command := Nat.mod_eq_of_lt h
  constructor
  · rw [createMessage_concat, hm]
  · rw [createMessage_concat]
    simp only [List.length_append, le4, List.length_cons, List.length_nil]

/-- Witness for `createMessage_layout`: the CNXN handshake frame with a
one-byte payload. -/
theorem createMessage_layout_witness :
    A_CNXN < 4294967296 ∧
    (createMessage A_CNXN ADB_VERSION ADB_MAX_PAYLOAD [104] =
      le4 A_CNXN ++ le4 ADB_VERSION ++ le4 ADB_MAX_PAYLOAD ++
        le4 ([104] : List Nat).length ++ le4 (payloadChecksum [104]) ++
        le4 (Nat.xor A_CNXN 4294967295) ++ [104] ∧
    (createMessage A_CNXN ADB_VERSION ADB_MAX_PAYLOAD [104]).length = 24 + ([104] : List Nat).length) :=
  ⟨by decide, createMessage_layout A_CNXN ADB_VERSION ADB_MAX_PAYLOAD [104] (by decide)⟩

/-- Reading the checksum field out of an assembled frame. -/
lemma readUint32LE_field16 (c a0 a1 L S M : Nat) (d : List Nat) :
    readUint32LE ((le4 c ++ le4 a0 ++ le4 a1 ++ le4 L ++ le4 S ++ le4 M) ++ d) 16 =
      S % 256 + 256 * (S / 256 % 256) + 65536 * (S / 65536 % 256) +
        16777216 * (S / 16777216 % 256) := rfl

/-- C4: for every payload, the checksum field of the frame equals the sum
of the payload byte values reduced modulo 2^32 and nothing else; in
particular it is `0` for the empty payload, `255` for `[0xFF]`, and
`4096` for 4096 bytes of `0x01`. -/
theorem createMessage_checksum (command arg0 arg1 : Nat) (data : List Nat) :
    readUint32LE (createMessage command arg0 arg1 data) 16 =
      data.sum % 4294967296 ∧
    readUint32LE (createMessage A_WRTE 1 0 []) 16 = 0 ∧
    readUint32LE (createMessage A_WRTE 1 0 [255]) 16 = 255 ∧
    readUint32LE (createMessage A_WRTE 1 0 (List.replicate 4096 1)) 16 = 4096 := by
  have key : ∀ (c a0 a1 : Nat) (d : List Nat),
      readUint32LE (createMessage c a0 a1 d) 16 = d.sum % 4294967296 := by
    intro c a0 a1 d
    rw [createMessage_concat, readUint32LE_field16, payloadChecksum]
    omega
  refine ⟨key command arg0 arg1 data, ?_, ?_, ?_⟩
  · rw [key]; rfl
  · rw [key]; rfl
  · rw [key, List.sum_replicate]
    norm_num

/-! ## Wire transport shell commands (`native-adb.ts`) -/

/-- The characters handled by `AdbConnection.sendText`'s escaping chain. -/
def bslashChar : Char := Char.ofNat 92

def dquoteChar : Char := Char.ofNat 34

def dollarChar : Char := Char.ofNat 36

def backtickChar : Char := Char.ofNat 96

def spaceChar : Char := Char.ofNat 32

def percentChar : Char := Char.ofNat 37

def sChar : Char := Char.ofNat 115

/-- The call `String.replace(/c/g, r)` for a single-character pattern `c`. -/
def replaceAllChar (c : Char) (r : List Char) (s : List Char) : List Char :=
  s.flatMap (fun a => if a = c then r else [a])

/-- The escaping chain of `AdbConnection.sendText`: backslash, then double
quote, then dollar, then backtick are backslash-prefixed, then spaces
become `%s` (in the source's order of `.replace` calls, innermost
first). -/
def escapeText (s : List Char) : List Char :=
  replaceAllChar spaceChar [percentChar, sChar]
    (replaceAllChar backtickChar [bslashChar, backtickChar]
      (replaceAllChar dollarChar [bslashChar, dollarChar]
        (replaceAllChar dquoteChar [bslashChar, dquoteChar]
          (replaceAllChar bslashChar [bslashChar, bslashChar] s))))

/-- The shell command built by `AdbConnection.sendText`. -/
def sendTextCommand (text : List Char) : List Char :=
  ("input text \"").data ++ escapeText text ++ [dquoteChar]

/-- Method `AdbConnection.sendText`: the list of shell commands it issues and its
result value.  It calls `this.shell` exactly once and returns `true`. -/
def sendText (text : List Char) : List (List Char) × Bool :=
  ([sendTextCommand text], true)

/-- Modelled from the spec's wording of the escaping, for comparison with
the source chain: a single pass that backslash-prefixes each occurrence
of backslash, double quote, dollar and backtick and replaces each space
with `%s`. -/
def specEscapeChar (a : Char) : List Char :=
  if a = bslashChar ∨ a = dquoteChar ∨ a = dollarChar ∨ a = backtickChar then
    [bslashChar, a]
  else if a = spaceChar then [percentChar, sChar]
  else [a]

def specEscape (s : List Char) : List Char := s.flatMap specEscapeChar

lemma replaceAllChar_append (c : Char) (r : List Char) (x y : List Char) :
    replaceAllChar c r (x ++ y) = replaceAllChar c r x ++ replaceAllChar c r y := by
  simp [replaceAllChar, List.flatMap_append]

lemma escapeText_append (x y : List Char) :
    escapeText (x ++ y) = escapeText x ++ escapeText y := by
  simp [escapeText, replaceAllChar_append]

lemma escapeText_singleton (a : Char) : escapeText [a] = specEscapeChar a := by
  by_cases h1 : a = bslashChar
  · subst h1; decide
  by_cases h2 : a = dquoteChar
  · subst h2; decide
  by_cases h3 : a = dollarChar
  · subst h3; decide
  by_cases h4 : a = backtickChar
  · subst h4; decide
  by_cases h5 : a = spaceChar
  · subst h5; decide
  simp [escapeText, replaceAllChar, specEscapeChar, h1, h2, h3, h4, h5]

lemma escapeText_eq_specEscape (s : List Char) : escapeText s = specEscape s := by
  induction s with
  | nil => rfl
  | cons a rest ih =>
      have : a :: rest = [a] ++ rest := rfl
      rw [this, escapeText_append, escapeText_singleton, ih]
      rfl

/-- C5: `sendText` issues exactly one shell command
`input text "<escaped>"`, where the escaping backslash-prefixes each
backslash, double quote, dollar and backtick and turns each space into
`%s`; in particular `sendText("hello world")` issues
`input text "hello%sworld"`. -/
theorem sendText_escaping (text : List Char) :
    (sendText text).1 =
      [("input text \"").data ++ specEscape text ++ [dquoteChar]] ∧
    (sendText text).2 = true ∧
    sendTextCommand (("hello world").data) = ("input text \"hello%sworld\"").data := by
  refine ⟨?_, rfl, by decide⟩
  rw [sendText, sendTextCommand, escapeText_eq_specEscape]

/-- Table `KEY_CODE_MAP` from `native-adb.ts`. -/
def KEY_CODE_MAP : List (String × Nat) :=
  [("KEYCODE_HOME", 3),
   ("KEYCODE_BACK", 4),
   ("KEYCODE_DPAD_UP", 19),
   ("KEYCODE_DPAD_DOWN", 20),
   ("KEYCODE_DPAD_LEFT", 21),
   ("KEYCODE_DPAD_RIGHT", 22),
   ("KEYCODE_DPAD_CENTER", 23),
   ("KEYCODE_VOLUME_UP", 24),
   ("KEYCODE_VOLUME_DOWN", 25),
   ("KEYCODE_POWER", 26),
   ("KEYCODE_VOLUME_MUTE", 164),
   ("KEYCODE_MENU", 82),
   ("KEYCODE_MEDIA_PLAY_PAUSE", 85),
   ("KEYCODE_MEDIA_STOP", 86),
   ("KEYCODE_MEDIA_NEXT", 87),
   ("KEYCODE_MEDIA_PREVIOUS", 88),
   ("KEYCODE_MEDIA_REWIND", 89),
   ("KEYCODE_MEDIA_FAST_FORWARD", 90),
   ("KEYCODE_CHANNEL_UP", 166),
   ("KEYCODE_CHANNEL_DOWN", 167),
   ("KEYCODE_SETTINGS", 176),
   ("KEYCODE_TV_INPUT", 178),
   ("KEYCODE_APP_SWITCH", 187)]

/-- Function `getKeyCodeNumber` from `native-adb.ts`: `KEY_CODE_MAP[keyCode] || 0`:
a total lookup defaulting to `0`. -/
def getKeyCodeNumber (keyCode : String) : Nat :=
  (KEY_CODE_MAP.lookup keyCode).getD 0

/-- The shell command built by `AdbConnection.sendKey` for a named key. -/
def sendKeyCommand (keyCode : String) : String :=
  "input keyevent " ++ toString (getKeyCodeNumber keyCode)

/-- Method `AdbConnection.sendKey`: the shell commands it issues and its result.
It runs one shell round trip and returns `true` unconditionally. -/
def sendKey (keyCode : String) : List String × Bool :=
  ([sendKeyCommand keyCode], true)

lemma lookup_eq_none_of_not_mem_keys (k : String) (l : List (String × Nat))
    (h : k ∉ l.map Prod.fst) : l.lookup k = none := by
  induction l with
  | nil => rfl
  | cons p rest ih =>
      rw [List.map_cons, List.mem_cons] at h
      push_neg at h
      obtain ⟨h1, h2⟩ := h
      have hb : (k == p.1) = false := by simpa using h1
      cases p with
      | mk a b =>
          rw [List.lookup_cons]
          simp only at hb
          simp [hb, ih h2]

/-- C10: for a key-code name absent from `KEY_CODE_MAP`, the lookup still
succeeds with `0`, so `sendKey` issues `input keyevent 0` and resolves to
`true` rather than failing. -/
theorem sendKey_unknown_key (k : String) (h : k ∉ KEY_CODE_MAP.map Prod.fst) :
    getKeyCodeNumber k = 0 ∧
    sendKey k = (["input keyevent 0"], true) := by
  have hl : KEY_CODE_MAP.lookup k = none :=
    lookup_eq_none_of_not_mem_keys k KEY_CODE_MAP h
  have h0 : getKeyCodeNumber k = 0 := by rw [getKeyCodeNumber, hl]; rfl
  refine ⟨h0, ?_⟩
  rw [sendKey, sendKeyCommand, h0]
  rfl

/-- Witness for `sendKey_unknown_key`: `KEYCODE_INFO` is not in the map. -/
theorem sendKey_unknown_key_witness :
    (("KEYCODE_INFO" : String) ∉ KEY_CODE_MAP.map Prod.fst) ∧
    (getKeyCodeNumber ("KEYCODE_INFO") = 0 ∧
      sendKey ("KEYCODE_INFO") = (["input keyevent 0"], true)) :=
  ⟨by decide, sendKey_unknown_key ("KEYCODE_INFO") (by decide)⟩

/-! ## Connection manager (`native-adb.ts`) -/

/-- An `AdbConnection` instance as the manager sees it: its construction
tag (distinguishing instances), the device it was built for, and whether
its connect sequence was invoked. -/
structure AdbConn where
  tag : Nat
  device : Device
  connectRun : Bool
deriving DecidableEq

/-- The `AdbConnectionManager`'s state: the `connections` map as an
insertion-ordered association list (JavaScript `Map` semantics) plus a
tag supply for fresh transport instances. -/
structure ManagerState where
  connections : List (String × AdbConn)
  nextTag : Nat
deriving DecidableEq

namespace AdbConnectionManager

/-- Method `AdbConnectionManager.connect`: return the existing transport for
`device.id` unchanged when one is registered; otherwise construct a new
transport, run its connect sequence, and register it under `device.id`
(a new `Map` key is appended in insertion order). -/
def connect (st : ManagerState) (device : Device) : AdbConn × ManagerState :=
  match st.connections.lookup device.id with
  | some existing => (existing, st)
  | none =>
      let c : AdbConn := { tag := st.nextTag, device := device, connectRun := true }
      (c, { connections := st.connections ++ [(device.id, c)], nextTag := st.nextTag + 1 })

end AdbConnectionManager

lemma lookup_append_single_of_none (l : List (String × AdbConn)) (k : String)
    (c : AdbConn) (h : l.lookup k = none) : (l ++ [(k, c)]).lookup k = some c := by
  induction l with
  | nil => simp [List.lookup]
  | cons p rest ih =>
      cases p with
      | mk a b =>
          rw [List.lookup_cons] at h
          rw [List.cons_append, List.lookup_cons]
          cases hk : (k == a) with
          | true => rw [hk] at h; simp at h
          | false => rw [hk] at h; simpa using ih h

lemma lookup_isSome_of_mem_keys (l : List (String × AdbConn)) (k : String)
    (h : k ∈ l.map Prod.fst) : (l.lookup k).isSome := by
  induction l with
  | nil => simp at h
  | cons p rest ih =>
      cases p with
      | mk a b =>
          rw [List.map_cons, List.mem_cons] at h
          rw [List.lookup_cons]
          cases hk : (k == a) with
          | true => simp
          | false =>
              have : k ≠ a := by simpa using hk
              simp only at h
              rcases h with h | h
              · exact absurd h this
              · simpa using ih h

/-- C7: the connection manager keeps at most one active transport per
device id: with a transport registered for `device.id`, `connect`
returns it and leaves the state unchanged; with none registered it
constructs exactly one new transport, runs its connect sequence, and
appends it under `device.id`; a second `connect` with the same device
returns the first call's transport and creates nothing new; distinct map
keys stay distinct. -/
theorem connect_at_most_one (st : ManagerState) (device : Device) :
    (∀ c, st.connections.lookup device.id = some c →
      AdbConnectionManager.connect st device = (c, st)) ∧
    (st.connections.lookup device.id = none →
      AdbConnectionManager.connect st device =
        (⟨st.nextTag, device, true⟩,
          ⟨st.connections ++ [(device.id, ⟨st.nextTag, device, true⟩)], st.nextTag + 1⟩)) ∧
    (AdbConnectionManager.connect
        (AdbConnectionManager.connect st device).2 device =
      ((AdbConnectionManager.connect st device).1,
        (AdbConnectionManager.connect st device).2)) ∧
    ((st.connections.map Prod.fst).Nodup →
      (((AdbConnectionManager.connect st device).2.connections.map Prod.fst).Nodup)) := by
  refine ⟨?_, ?_, ?_, ?_⟩
  · intro c hc
    rw [AdbConnectionManager.connect, hc]
  · intro hc
    rw [AdbConnectionManager.connect, hc]
  · cases hc : st.connections.lookup device.id with
    | some c =>
        have h1 : AdbConnectionManager.connect st device = (c, st) := by
          rw [AdbConnectionManager.connect, hc]
        rw [h1, AdbConnectionManager.connect, hc]
    | none =>
        have h1 : AdbConnectionManager.connect st device =
            (⟨st.nextTag, device, true⟩,
              ⟨st.connections ++ [(device.id, ⟨st.nextTag, device, true⟩)],
                st.nextTag + 1⟩) := by
          rw [AdbConnectionManager.connect, hc]
        rw [h1, AdbConnectionManager.connect]
        rw [lookup_append_single_of_none st.connections device.id _ hc]
  · intro hnd
    cases hc : st.connections.lookup device.id with
    | some c =>
        rw [AdbConnectionManager.connect, hc]
        exact hnd
    | none =>
        rw [AdbConnectionManager.connect, hc]
        simp only [List.map_append, List.map_cons, List.map_nil]
        rw [List.nodup_append]
        refine ⟨hnd, by simp, ?_⟩
        intro a ha hb
        simp at hb
        subst hb
        have := lookup_isSome_of_mem_keys st.connections device.id ha
        rw [hc] at this
        simp at this

/-- Witness for `connect_at_most_one` at the empty manager. -/
theorem connect_at_most_one_witness :
    ((⟨[], 0⟩ : ManagerState).connections.lookup (mkDevice ("10.0.0.3") none 5555).id = none) ∧
    (AdbConnectionManager.connect ⟨[], 0⟩ (mkDevice ("10.0.0.3") none 5555) =
      (⟨0, mkDevice ("10.0.0.3") none 5555, true⟩,
        ⟨[((mkDevice ("10.0.0.3") none 5555).id,
            ⟨0, mkDevice ("10.0.0.3") none 5555, true⟩)], 1⟩)) ∧
    (AdbConnectionManager.connect
        (AdbConnectionManager.connect ⟨[], 0⟩ (mkDevice ("10.0.0.3") none 5555)).2
        (mkDevice ("10.0.0.3") none 5555) =
      ((AdbConnectionManager.connect ⟨[], 0⟩ (mkDevice ("10.0.0.3") none 5555)).1,
        (AdbConnectionManager.connect ⟨[], 0⟩ (mkDevice ("10.0.0.3") none 5555)).2)) := by
  have h := connect_at_most_one ⟨[], 0⟩ (mkDevice ("10.0.0.3") none 5555)
  have hn : (⟨[], 0⟩ : ManagerState).connections.lookup
      (mkDevice ("10.0.0.3") none 5555).id = none := rfl
  have h2 := h.2.1 hn
  refine ⟨hn, ?_, h.2.2.1⟩
  rw [h2]
  rfl

/-! ## Bridge transport command gate (`useAdbConnection`, part 2) -/

/-- The bridge channel as `sendCommand` sees it: whether the WebSocket's
`readyState` is `OPEN`, the frames written to the socket so far, and the
surfaced error state. -/
structure BridgeChannel where
  wsOpen : Bool
  sentFrames : List String
  error : Option String
deriving DecidableEq

/-- Function `sendCommand` from `useAdbConnection`: when the channel is open the
serialized command is written to the socket and the call returns `true`;
otherwise nothing is sent, the error state is set, and the call returns
`false`. -/
def sendCommand (st : BridgeChannel) (command : String) : Bool × BridgeChannel :=
  if st.wsOpen then
    (true, { st with sentFrames := st.sentFrames ++ [command] })
  else
    (false, { st with error := some ("Not connected to ADB bridge") })

/-- C8: a command issued while the channel is not open is dropped: no
frame is written (no I/O, nothing queued for retry — the resulting state
holds the command nowhere), an error state is surfaced, and the call
returns the failure indicator `false` without raising. -/
theorem sendCommand_disconnected (st : BridgeChannel) (command : String)
    (h : st.wsOpen = false) :
    (sendCommand st command).1 = false ∧
    (sendCommand st command).2.sentFrames = st.sentFrames ∧
    (sendCommand st command).2.error = some ("Not connected to ADB bridge") ∧
    (sendCommand st command).2.wsOpen = st.wsOpen := by
  rw [sendCommand, h]
  exact ⟨rfl, rfl, rfl, rfl⟩

/-- Witness for `sendCommand_disconnected` on a closed channel. -/
theorem sendCommand_disconnected_witness :
    ((⟨false, [], none⟩ : BridgeChannel).wsOpen = false) ∧
    ((sendCommand ⟨false, [], none⟩ ("scan")).1 = false ∧
      (sendCommand ⟨false, [], none⟩ ("scan")).2.sentFrames =
        (⟨false, [], none⟩ : BridgeChannel).sentFrames ∧
      (sendCommand ⟨false, [], none⟩ ("scan")).2.error =
        some ("Not connected to ADB bridge") ∧
      (sendCommand ⟨false, [], none⟩ ("scan")).2.wsOpen =
        (⟨false, [], none⟩ : BridgeChannel).wsOpen) :=
  ⟨rfl, sendCommand_disconnected ⟨false, [], none⟩ ("scan") rfl⟩

/-! ## Bridge pending-request correlation (`useAdbConnection`)

`takeScreenshot` and `wakeOnLan` each keep a single mutable resolver ref
(`screenshotResolveRef` / `wolResolveRef`).  We model the refs, the
resolver invocations, and the event-driven callbacks as a step function
over an explicit event trace: issuing a request (with the success of the
underlying `sendCommand`), the firing of a scheduled timeout callback,
and the arrival of `screenshot` / `wol_sent` / `error` bridge messages.
Each resolver is identified by a `Nat`; an invocation `(rid, v)` is
appended to a log, so "resolved exactly once" is a statement about the
log. -/

/-- A bridge inbound/internal event affecting the pending-request slots. -/
inductive BridgeEvent where
  | issueScreenshot (rid : Nat) (sent : Bool)
  | issueWol (rid : Nat) (sent : Bool)
  | screenshotTimeout
  | wolTimeout
  | screenshotMessage (success : Bool) (payload : Option String)
  | wolMessage (success : Bool)
  | errorMessage
deriving DecidableEq

/-- The slots and the resolver-invocation logs.  `shotLog` records each
invocation of a screenshot resolver with its value (`none` is the
failure value `null`); `wolLog` likewise with the boolean result. -/
structure PendingState where
  screenshotSlot : Option Nat
  wolSlot : Option Nat
  shotLog : List (Nat × Option String)
  wolLog : List (Nat × Bool)
deriving DecidableEq

/-- One event against the pending-request state, following the source:

* `takeScreenshot` stores its resolver in the ref, then, if `sendCommand`
  failed, resolves `null` immediately and clears the ref;
* the 10-second timeout callback resolves whatever resolver is currently
  in the ref with `null` and clears it, and does nothing on an empty ref;
* a `screenshot` message resolves the current resolver with the decoded
  url on `success && data` and with `null` otherwise, then clears the
  ref, and is ignored on an empty ref;
* `wakeOnLan`, its 5-second timeout and `wol_sent` behave likewise with
  `false` as the failure value;
* an `error` message resolves and clears both refs. -/
def bridgeStep (st : PendingState) (e : BridgeEvent) : PendingState :=
  match e with
  | .issueScreenshot rid sent =>
      if sent then { st with screenshotSlot := some rid }
      else { st with screenshotSlot := none, shotLog := st.shotLog ++ [(rid, none)] }
  | .issueWol rid sent =>
      if sent then { st with wolSlot := some rid }
      else { st with wolSlot := none, wolLog := st.wolLog ++ [(rid, false)] }
  | .screenshotTimeout =>
      match st.screenshotSlot with
      | some r => { st with screenshotSlot := none, shotLog := st.shotLog ++ [(r, none)] }
      | none => st
  | .wolTimeout =>
      match st.wolSlot with
      | some r => { st with wolSlot := none, wolLog := st.wolLog ++ [(r, false)] }
      | none => st
  | .screenshotMessage success payload =>
      match st.screenshotSlot with
      | some r =>
          { st with
            screenshotSlot := none
            shotLog := st.shotLog ++ [(r, if success then payload else none)] }
      | none => st
  | .wolMessage success =>
      match st.wolSlot with
      | some r => { st with wolSlot := none, wolLog := st.wolLog ++ [(r, success)] }
      | none => st
  | .errorMessage =>
      { st with
        screenshotSlot := none
        wolSlot := none
        shotLog := st.shotLog ++
          (match st.screenshotSlot with | some r => [(r, none)] | none => [])
        wolLog := st.wolLog ++
          (match st.wolSlot with | some r => [(r, false)] | none => []) }

/-- Run a trace of events. -/
def bridgeRun (st : PendingState) : List BridgeEvent → PendingState
  | [] => st
  | e :: es => bridgeRun (bridgeStep st e) es

/-- The empty pending state: no outstanding request, nothing resolved. -/
def pendingInit : PendingState := ⟨none, none, [], []⟩

/-- A trace of stale screenshot responses leaves an empty screenshot slot
and the whole state untouched. -/
lemma bridgeRun_stale_screenshot (es : List BridgeEvent) :
    ∀ st : PendingState, st.screenshotSlot = none →
      (∀ e ∈ es, ∃ s p, e = BridgeEvent.screenshotMessage s p) →
      bridgeRun st es = st := by
  induction es with
  | nil => intro st _ _; rfl
  | cons e rest ih =>
      intro st hslot hall
      obtain ⟨s, p, he⟩ := hall e (List.mem_cons_self e rest)
      subst he
      rw [bridgeRun]
      have hstep : bridgeStep st (BridgeEvent.screenshotMessage s p) = st := by
        simp only [bridgeStep, hslot]
      rw [hstep]
      exact ih st hslot (fun x hx => hall x (List.mem_cons_of_mem _ hx))

/-- C1: a screenshot request that receives no correlated response within
its 10-second window resolves to the failure value `null` exactly once —
whether the request frame was sent (the timeout fires on the stored
resolver) or dropped (the resolver fires immediately and the timeout
finds the slot empty) — and any stale screenshot responses arriving
after the timeout are discarded silently without invoking any resolver
again. -/
theorem takeScreenshot_timeout_resolves_once (rid : Nat) (sent : Bool)
    (stales : List BridgeEvent)
    (hstale : ∀ e ∈ stales, ∃ s p, e = BridgeEvent.screenshotMessage s p) :
    (bridgeRun pendingInit
        (BridgeEvent.issueScreenshot rid sent ::
          BridgeEvent.screenshotTimeout :: stales)).shotLog = [(rid, none)] ∧
    (bridgeRun pendingInit
        (BridgeEvent.issueScreenshot rid sent ::
          BridgeEvent.screenshotTimeout :: stales)).screenshotSlot = none ∧
    (bridgeRun pendingInit
        (BridgeEvent.issueScreenshot rid sent ::
          BridgeEvent.screenshotTimeout :: stales)).wolLog = [] := by
  have hpre : bridgeRun pendingInit
      (BridgeEvent.issueScreenshot rid sent :: BridgeEvent.screenshotTimeout :: stales) =
      bridgeRun ⟨none, none, [(rid, none)], []⟩ stales := by
    cases sent with
    | true => rfl
    | false => rfl
  rw [hpre, bridgeRun_stale_screenshot stales ⟨none, none, [(rid, none)], []⟩ rfl hstale]
  exact ⟨rfl, rfl, rfl⟩

/-- Witness for `takeScreenshot_timeout_resolves_once` with one stale
successful response arriving after the timeout. -/
theorem takeScreenshot_timeout_resolves_once_witness :
    (∀ e ∈ [BridgeEvent.screenshotMessage true (some ("blob:1"))],
      ∃ s p, e = BridgeEvent.screenshotMessage s p) ∧
    ((bridgeRun pendingInit
        (BridgeEvent.issueScreenshot 7 true ::
          BridgeEvent.screenshotTimeout ::
            [BridgeEvent.screenshotMessage true (some ("blob:1"))])).shotLog =
      [(7, none)] ∧
    (bridgeRun pendingInit
        (BridgeEvent.issueScreenshot 7 true ::
          BridgeEvent.screenshotTimeout ::
            [BridgeEvent.screenshotMessage true (some ("blob:1"))])).screenshotSlot = none ∧
    (bridgeRun pendingInit
        (BridgeEvent.issueScreenshot 7 true ::
          BridgeEvent.screenshotTimeout ::
            [BridgeEvent.screenshotMessage true (some ("blob:1"))])).wolLog = []) := by
  have hstale : ∀ e ∈ [BridgeEvent.screenshotMessage true (some ("blob:1"))],
      ∃ s p, e = BridgeEvent.screenshotMessage s p := by
    intro e he
    rw [List.mem_singleton] at he
    exact ⟨true, some ("blob:1"), he⟩
  exact ⟨hstale, takeScreenshot_timeout_resolves_once 7 true _ hstale⟩

/-- Any entry of the screenshot log after one step was already logged,
or names the resolver that was in the slot, or the resolver of a
screenshot issue event. -/
lemma step_shotLog_cases (st : PendingState) (e : BridgeEvent) (q : Nat × Option String)
    (hq : q ∈ (bridgeStep st e).shotLog) :
    q ∈ st.shotLog ∨ st.screenshotSlot = some q.1 ∨
      ∃ sent, e = BridgeEvent.issueScreenshot q.1 sent := by
  cases e with
  | issueScreenshot rid sent =>
      cases sent with
      | true => exact Or.inl (by simpa [bridgeStep] using hq)
      | false =>
          have h : q ∈ st.shotLog ∨ q = (rid, none) := by
            simpa [bridgeStep] using hq
          rcases h with h | h
          · exact Or.inl h
          · subst h
            exact Or.inr (Or.inr ⟨false, rfl⟩)
  | issueWol rid sent =>
      cases sent with
      | true => exact Or.inl (by simpa [bridgeStep] using hq)
      | false => exact Or.inl (by simpa [bridgeStep] using hq)
  | screenshotTimeout =>
      cases hslot : st.screenshotSlot with
      | none => exact Or.inl (by simpa [bridgeStep, hslot] using hq)
      | some r =>
          have h : q ∈ st.shotLog ∨ q = (r, none) := by
            simpa [bridgeStep, hslot] using hq
          rcases h with h | h
          · exact Or.inl h
          · subst h
            refine Or.inr (Or.inl ?_)
            simp [hslot]
  | wolTimeout =>
      cases hslot : st.wolSlot with
      | none => exact Or.inl (by simpa [bridgeStep, hslot] using hq)
      | some r => exact Or.inl (by simpa [bridgeStep, hslot] using hq)
  | screenshotMessage success payload =>
      cases hslot : st.screenshotSlot with
      | none => exact Or.inl (by simpa [bridgeStep, hslot] using hq)
      | some r =>
          have h : q ∈ st.shotLog ∨ q = (r, if success then payload else none) := by
            simpa [bridgeStep, hslot] using hq
          rcases h with h | h
          · exact Or.inl h
          · subst h
            refine Or.inr (Or.inl ?_)
            simp [hslot]
  | wolMessage success =>
      cases hslot : st.wolSlot with
      | none => exact Or.inl (by simpa [bridgeStep, hslot] using hq)
      | some r => exact Or.inl (by simpa [bridgeStep, hslot] using hq)
  | errorMessage =>
      cases hslot : st.screenshotSlot with
      | none => exact Or.inl (by simpa [bridgeStep, hslot] using hq)
      | some r =>
          have h : q ∈ st.shotLog ∨ q = (r, none) := by
            simpa [bridgeStep, hslot] using hq
          rcases h with h | h
          · exact Or.inl h
          · subst h
            refine Or.inr (Or.inl ?_)
            simp [hslot]

/-- The screenshot slot after one step holds a resolver only if it was
already there or the step issued it. -/
lemma step_screenshotSlot_cases (st : PendingState) (e : BridgeEvent) (r : Nat)
    (hr : (bridgeStep st e).screenshotSlot = some r) :
    st.screenshotSlot = some r ∨ ∃ sent, e = BridgeEvent.issueScreenshot r sent := by
  cases e with
  | issueScreenshot rid sent =>
      cases sent with
      | true =>
          have h : rid = r := by simpa [bridgeStep] using hr
          subst h
          exact Or.inr ⟨true, rfl⟩
      | false => simp [bridgeStep] at hr
  | issueWol rid sent =>
      cases sent with
      | true => exact Or.inl (by simpa [bridgeStep] using hr)
      | false => exact Or.inl (by simpa [bridgeStep] using hr)
  | screenshotTimeout =>
      cases hslot : st.screenshotSlot with
      | none => simp [bridgeStep, hslot] at hr
      | some x => simp [bridgeStep, hslot] at hr
  | wolTimeout =>
      cases hslot : st.wolSlot with
      | none => exact Or.inl (by simpa [bridgeStep, hslot] using hr)
      | some x => exact Or.inl (by simpa [bridgeStep, hslot] using hr)
  | screenshotMessage success payload =>
      cases hslot : st.screenshotSlot with
      | none => simp [bridgeStep, hslot] at hr
      | some x => simp [bridgeStep, hslot] at hr
  | wolMessage success =>
      cases hslot : st.wolSlot with
      | none => exact Or.inl (by simpa [bridgeStep, hslot] using hr)
      | some x => exact Or.inl (by simpa [bridgeStep, hslot] using hr)
  | errorMessage => simp [bridgeStep] at hr

/-- Wake-on-LAN analogue of `step_shotLog_cases`. -/
lemma step_wolLog_cases (st : PendingState) (e : BridgeEvent) (q : Nat × Bool)
    (hq : q ∈ (bridgeStep st e).wolLog) :
    q ∈ st.wolLog ∨ st.wolSlot = some q.1 ∨
      ∃ sent, e = BridgeEvent.issueWol q.1 sent := by
  cases e with
  | issueWol rid sent =>
      cases sent with
      | true => exact Or.inl (by simpa [bridgeStep] using hq)
      | false =>
          have h : q ∈ st.wolLog ∨ q = (rid, false) := by
            simpa [bridgeStep] using hq
          rcases h with h | h
          · exact Or.inl h
          · subst h
            exact Or.inr (Or.inr ⟨false, rfl⟩)
  | issueScreenshot rid sent =>
      cases sent with
      | true => exact Or.inl (by simpa [bridgeStep] using hq)
      | false => exact Or.inl (by simpa [bridgeStep] using hq)
  | wolTimeout =>
      cases hslot : st.wolSlot with
      | none => exact Or.inl (by simpa [bridgeStep, hslot] using hq)
      | some r =>
          have h : q ∈ st.wolLog ∨ q = (r, false) := by
            simpa [bridgeStep, hslot] using hq
          rcases h with h | h
          · exact Or.inl h
          · subst h
            refine Or.inr (Or.inl ?_)
            simp [hslot]
  | screenshotTimeout =>
      cases hslot : st.screenshotSlot with
      | none => exact Or.inl (by simpa [bridgeStep, hslot] using hq)
      | some r => exact Or.inl (by simpa [bridgeStep, hslot] using hq)
  | wolMessage success =>
      cases hslot : st.wolSlot with
      | none => exact Or.inl (by simpa [bridgeStep, hslot] using hq)
      | some r =>
          have h : q ∈ st.wolLog ∨ q = (r, success) := by
            simpa [bridgeStep, hslot] using hq
          rcases h with h | h
          · exact Or.inl h
          · subst h
            refine Or.inr (Or.inl ?_)
            simp [hslot]
  | screenshotMessage success payload =>
      cases hslot : st.screenshotSlot with
      | none => exact Or.inl (by simpa [bridgeStep, hslot] using hq)
      | some r => exact Or.inl (by simpa [bridgeStep, hslot] using hq)
  | errorMessage =>
      cases hslot : st.wolSlot with
      | none => exact Or.inl (by simpa [bridgeStep, hslot] using hq)
      | some r =>
          have h : q ∈ st.wolLog ∨ q = (r, false) := by
            simpa [bridgeStep, hslot] using hq
          rcases h with h | h
          · exact Or.inl h
          · subst h
            refine Or.inr (Or.inl ?_)
            simp [hslot]

/-- Wake-on-LAN analogue of `step_screenshotSlot_cases`. -/
lemma step_wolSlot_cases (st : PendingState) (e : BridgeEvent) (r : Nat)
    (hr : (bridgeStep st e).wolSlot = some r) :
    st.wolSlot = some r ∨ ∃ sent, e = BridgeEvent.issueWol r sent := by
  cases e with
  | issueWol rid sent =>
      cases sent with
      | true =>
          have h : rid = r := by simpa [bridgeStep] using hr
          subst h
          exact Or.inr ⟨true, rfl⟩
      | false => simp [bridgeStep] at hr
  | issueScreenshot rid sent =>
      cases sent with
      | true => exact Or.inl (by simpa [bridgeStep] using hr)
      | false => exact Or.inl (by simpa [bridgeStep] using hr)
  | wolTimeout =>
      cases hslot : st.wolSlot with
      | none => simp [bridgeStep, hslot] at hr
      | some x => simp [bridgeStep, hslot] at hr
  | screenshotTimeout =>
      cases hslot : st.screenshotSlot with
      | none => exact Or.inl (by simpa [bridgeStep, hslot] using hr)
      | some x => exact Or.inl (by simpa [bridgeStep, hslot] using hr)
  | wolMessage success =>
      cases hslot : st.wolSlot with
      | none => simp [bridgeStep, hslot] at hr
      | some x => simp [bridgeStep, hslot] at hr
  | screenshotMessage success payload =>
      cases hslot : st.screenshotSlot with
      | none => exact Or.inl (by simpa [bridgeStep, hslot] using hr)
      | some x => exact Or.inl (by simpa [bridgeStep, hslot] using hr)
  | errorMessage => simp [bridgeStep] at hr

/-- After any trace containing no issue event for resolver `a`, a
screenshot slot not holding `a` never comes to hold `a`, and no new
invocation of `a` is logged. -/
lemma screenshot_no_revive (a : Nat) (es : List BridgeEvent) :
    ∀ st : PendingState, st.screenshotSlot ≠ some a →
      (∀ sent, BridgeEvent.issueScreenshot a sent ∉ es) →
      (bridgeRun st es).screenshotSlot ≠ some a ∧
      ∀ v, (a, v) ∈ (bridgeRun st es).shotLog → (a, v) ∈ st.shotLog := by
  induction es with
  | nil => intro st hs _; exact ⟨hs, fun v hv => hv⟩
  | cons e rest ih =>
      intro st hs hni
      have hni' : ∀ sent, BridgeEvent.issueScreenshot a sent ∉ rest := by
        intro sent hmem
        exact hni sent (List.mem_cons_of_mem _ hmem)
      have hslot : (bridgeStep st e).screenshotSlot ≠ some a := by
        intro hsome
        rcases step_screenshotSlot_cases st e a hsome with h | ⟨sent, h⟩
        · exact hs h
        · exact hni sent (h ▸ List.mem_cons_self _ _)
      have hrest := ih (bridgeStep st e) hslot hni'
      refine ⟨hrest.1, fun v hv => ?_⟩
      rcases step_shotLog_cases st e (a, v) (hrest.2 v hv) with h | h | ⟨sent, h⟩
      · exact h
      · exact absurd h hs
      · exact absurd (h ▸ List.mem_cons_self _ _) (fun hc => hni sent hc)

/-- The symmetric statement for the wake-on-LAN slot. -/
lemma wol_no_revive (a : Nat) (es : List BridgeEvent) :
    ∀ st : PendingState, st.wolSlot ≠ some a →
      (∀ sent, BridgeEvent.issueWol a sent ∉ es) →
      (bridgeRun st es).wolSlot ≠ some a ∧
      ∀ v, (a, v) ∈ (bridgeRun st es).wolLog → (a, v) ∈ st.wolLog := by
  induction es with
  | nil => intro st hs _; exact ⟨hs, fun v hv => hv⟩
  | cons e rest ih =>
      intro st hs hni
      have hni' : ∀ sent, BridgeEvent.issueWol a sent ∉ rest := by
        intro sent hmem
        exact hni sent (List.mem_cons_of_mem _ hmem)
      have hslot : (bridgeStep st e).wolSlot ≠ some a := by
        intro hsome
        rcases step_wolSlot_cases st e a hsome with h | ⟨sent, h⟩
        · exact hs h
        · exact hni sent (h ▸ List.mem_cons_self _ _)
      have hrest := ih (bridgeStep st e) hslot hni'
      refine ⟨hrest.1, fun v hv => ?_⟩
      rcases step_wolLog_cases st e (a, v) (hrest.2 v hv) with h | h | ⟨sent, h⟩
      · exact h
      · exact absurd h hs
      · exact absurd (h ▸ List.mem_cons_self _ _) (fun hc => hni sent hc)

/-- C2: each pending-request slot is an `Option`-typed single resolver by
construction; issuing a second request of the same kind while one is
outstanding overwrites the slot (last writer wins), and the previous
caller's resolver is never invoked afterwards by anything — in
particular never except by that previous request's own timeout.  Stated
for both the screenshot and the wake-on-LAN slot. -/
theorem pending_slot_last_writer_wins (st : PendingState) (a b : Nat)
    (es : List BridgeEvent) :
    (st.screenshotSlot = some a → a ≠ b →
      (∀ v, (a, v) ∉ st.shotLog) →
      (∀ sent, BridgeEvent.issueScreenshot a sent ∉ es) →
      (bridgeStep st (BridgeEvent.issueScreenshot b true)).screenshotSlot = some b ∧
      ∀ v, (a, v) ∉
        (bridgeRun (bridgeStep st (BridgeEvent.issueScreenshot b true)) es).shotLog) ∧
    (st.wolSlot = some a → a ≠ b →
      (∀ v, (a, v) ∉ st.wolLog) →
      (∀ sent, BridgeEvent.issueWol a sent ∉ es) →
      (bridgeStep st (BridgeEvent.issueWol b true)).wolSlot = some b ∧
      ∀ v, (a, v) ∉
        (bridgeRun (bridgeStep st (BridgeEvent.issueWol b true)) es).wolLog) := by
  constructor
  · intro _ hab hlog hni
    have hover : (bridgeStep st (BridgeEvent.issueScreenshot b true)).screenshotSlot
        = some b := by
      simp [bridgeStep]
    refine ⟨hover, ?_⟩
    have hne : (bridgeStep st (BridgeEvent.issueScreenshot b true)).screenshotSlot
        ≠ some a := by
      rw [hover]
      intro hcontra
      exact hab (Option.some.inj hcontra).symm
    have h := screenshot_no_revive a es
      (bridgeStep st (BridgeEvent.issueScreenshot b true)) hne hni
    intro v hv
    have hmem := h.2 v hv
    simp only [bridgeStep, if_pos] at hmem
    exact hlog v hmem
  · intro _ hab hlog hni
    have hover : (bridgeStep st (BridgeEvent.issueWol b true)).wolSlot = some b := by
      simp [bridgeStep]
    refine ⟨hover, ?_⟩
    have hne : (bridgeStep st (BridgeEvent.issueWol b true)).wolSlot ≠ some a := by
      rw [hover]
      intro hcontra
      exact hab (Option.some.inj hcontra).symm
    have h := wol_no_revive a es (bridgeStep st (BridgeEvent.issueWol b true)) hne hni
    intro v hv
    have hmem := h.2 v hv
    simp only [bridgeStep, if_pos] at hmem
    exact hlog v hmem

/-- Witness for `pending_slot_last_writer_wins`: resolver 1 is
outstanding, resolver 2 overwrites it, then the first request's own
timeout fires — resolver 1 is still never invoked. -/
theorem pending_slot_last_writer_wins_witness :
    ((⟨some 1, some 1, [], []⟩ : PendingState).screenshotSlot = some 1 ∧
      (1 : Nat) ≠ 2 ∧
      (∀ v, ((1 : Nat), v) ∉ (⟨some 1, some 1, [], []⟩ : PendingState).shotLog) ∧
      (∀ sent, BridgeEvent.issueScreenshot 1 sent ∉ [BridgeEvent.screenshotTimeout])) ∧
    ((bridgeStep ⟨some 1, some 1, [], []⟩
        (BridgeEvent.issueScreenshot 2 true)).screenshotSlot = some 2 ∧
      ∀ v, ((1 : Nat), v) ∉
        (bridgeRun (bridgeStep ⟨some 1, some 1, [], []⟩
          (BridgeEvent.issueScreenshot 2 true))
            [BridgeEvent.screenshotTimeout]).shotLog) := by
  have hlog : ∀ v, ((1 : Nat), v) ∉ (⟨some 1, some 1, [], []⟩ : PendingState).shotLog := by
    intro v hv
    simp at hv
  have hni : ∀ sent, BridgeEvent.issueScreenshot 1 sent ∉ [BridgeEvent.screenshotTimeout] := by
    intro sent hmem
    rw [List.mem_singleton] at hmem
    cases hmem
  refine ⟨⟨rfl, by decide, hlog, hni⟩, ?_⟩
  exact (pending_slot_last_writer_wins ⟨some 1, some 1, [], []⟩ 1 2
    [BridgeEvent.screenshotTimeout]).1 rfl (by decide) hlog hni

end SmartTvRemote
